import Mathlib

/-!
Verification of the vertical-jump-calculator measurement engine.

The development shallowly embeds the numeric core of the repository:
the manual kinematic estimator and jump classifier (app.js), and the
vision-based estimator of the pose-analysis module.  JavaScript numbers
are modelled as rationals, so every stated arithmetic identity is exact;
Math.round is modelled as rounding half toward positive infinity, which
is its JavaScript semantics.  Code paths that throw are modelled with
Except over an explicit error type.
-/

namespace JumpCalc

/-- JavaScript Math.round: rounds half toward positive infinity. -/
def jsRound (x : ℚ) : ℤ := ⌊x + 1/2⌋

namespace App

/-- Embeds the GRAVITY constant, app.js line 10. -/
def GRAVITY : ℚ := 9.81

/-- Embeds calculateJumpHeight, app.js lines 275-281: the manual kinematic
estimator computing heightMeters = 0.5 * g * t^2 and heightCm = 100 * heightMeters.
The function has no validity check and no clamping. -/
def calculateJumpHeight (timeToApex : ℚ) : ℚ :=
  let heightMeters := 0.5 * GRAVITY * timeToApex ^ 2
  let heightCm := heightMeters * 100
  heightCm

/-- Embeds calculateAndShowResults, app.js lines 283-288: computes
airTime = peakTime - takeoffTime and passes it straight to
calculateJumpHeight, with no mark-order check of its own. -/
def calculateAndShowResults (takeoffTime peakTime : ℚ) : ℚ :=
  let airTime := peakTime - takeoffTime
  calculateJumpHeight airTime

/-- Embeds the canCalculate condition of updateCalculateButton, app.js
lines 265-271: the button is enabled only when both marks are set and
peakTime > takeoffTime.  A missing mark is modelled as none. -/
def canCalculate (takeoffTime peakTime : Option ℚ) : Bool :=
  match takeoffTime, peakTime with
  | some t, some p => decide (t < p)
  | _, _ => false

/-- The six performance categories of the classifier, app.js lines 310-348. -/
inductive JumpCategory
  | beginner
  | average
  | good
  | great
  | excellent
  | elite
deriving DecidableEq

/-- Position of a category in the performance ladder, used to state
monotonicity of the classifier. -/
def JumpCategory.idx : JumpCategory → ℕ
  | .beginner => 0
  | .average => 1
  | .good => 2
  | .great => 3
  | .excellent => 4
  | .elite => 5

/-- Embeds getJumpCategory, app.js lines 310-348 (the identical copy lives
at lines 803-841): a six-way if chain on heightCm. -/
def getJumpCategory (heightCm : ℚ) : JumpCategory :=
  if heightCm < 30 then .beginner
  else if heightCm < 46 then .average
  else if heightCm < 56 then .good
  else if heightCm < 66 then .great
  else if heightCm < 76 then .excellent
  else .elite

end App

namespace PoseAnalyzer

/-- Landmark names used by the pose module; every name the code never
looks up is collapsed into the catch-all constructor. -/
inductive KPName
  | nose
  | left_hip
  | right_hip
  | left_ankle
  | right_ankle
  | otherName
deriving DecidableEq

/-- One detector keypoint: name, image-space y (grows downward), score. -/
structure Keypoint where
  name : KPName
  y : ℚ
  score : ℚ
deriving DecidableEq

/-- One hip observation pushed by analyzeJump, pose module lines 82-86. -/
structure HipObs where
  time : ℚ
  y : ℚ
  confidence : ℚ
deriving DecidableEq

/-- The record returned by extractPoseData, pose module lines 152-156. -/
structure PoseData where
  hipY : ℚ
  confidence : ℚ
  bodyHeight : ℚ
deriving DecidableEq

/-- Embeds the minConfidence threshold, pose module line 123. -/
def minConfidence : ℚ := 0.3

/-- Embeds the getKeypoint lookup, pose module line 112: first keypoint
with the requested name. -/
def getKeypoint (keypoints : List Keypoint) (nm : KPName) : Option Keypoint :=
  keypoints.find? (fun kp => decide (kp.name = nm))

/-- Embeds getAverageY, pose module lines 183-195: average of the two y
values when both keypoints are valid, the single valid y when only one is,
null when neither is.  Validity is presence plus score above the threshold. -/
def getAverageY (kp1 kp2 : Option Keypoint) (minConf : ℚ) : Option ℚ :=
  match kp1, kp2 with
  | some k1, some k2 =>
    if k1.score > minConf ∧ k2.score > minConf then some ((k1.y + k2.y) / 2)
    else if k1.score > minConf then some k1.y
    else if k2.score > minConf then some k2.y
    else none
  | some k1, none => if k1.score > minConf then some k1.y else none
  | none, some k2 => if k2.score > minConf then some k2.y else none
  | none, none => none

/-- Embeds the noseY computation of extractPoseData, pose module line 146:
the nose y when the nose keypoint exists with score above threshold. -/
def noseYOf (keypoints : List Keypoint) : Option ℚ :=
  match getKeypoint keypoints .nose with
  | some n => if n.score > minConfidence then some n.y else none
  | none => none

/-- Embeds the ankleY computation of extractPoseData, pose module line 145. -/
def ankleYOf (keypoints : List Keypoint) : Option ℚ :=
  getAverageY (getKeypoint keypoints .left_ankle) (getKeypoint keypoints .right_ankle)
    minConfidence

/-- Embeds the bodyHeight computation of extractPoseData, pose module
lines 142-150: the absolute nose-to-ankle span when both are available,
otherwise 0. -/
def bodyHeightOf (keypoints : List Keypoint) : ℚ :=
  match ankleYOf keypoints, noseYOf keypoints with
  | some a, some nY => |a - nY|
  | _, _ => 0

/-- Embeds extractPoseData, pose module lines 107-157: returns null when
either hip keypoint is missing; otherwise selects the hip y and confidence
by the three-way confidence chain of lines 129-138 (average of both hips,
else the single confident hip, else null), attaching the bodyHeight of
lines 142-150. -/
def extractPoseData (keypoints : List Keypoint) : Option PoseData :=
  match getKeypoint keypoints .left_hip, getKeypoint keypoints .right_hip with
  | some leftHip, some rightHip =>
    if leftHip.score > minConfidence ∧ rightHip.score > minConfidence then
      some ⟨(leftHip.y + rightHip.y) / 2, (leftHip.score + rightHip.score) / 2,
        bodyHeightOf keypoints⟩
    else if leftHip.score > minConfidence then
      some ⟨leftHip.y, leftHip.score, bodyHeightOf keypoints⟩
    else if rightHip.score > minConfidence then
      some ⟨rightHip.y, rightHip.score, bodyHeightOf keypoints⟩
    else none
  | _, _ => none

/-- Collection condition of analyzeJump, pose module lines 81-91: one
BodyHeightSample is pushed for a frame exactly when extractPoseData
returns a record whose bodyHeight is strictly positive. -/
def bodyHeightCollected (keypoints : List Keypoint) : Prop :=
  ∃ pd, extractPoseData keypoints = some pd ∧ 0 < pd.bodyHeight

/-- Error outcomes of the vision estimator, pose module lines 202, 209, 266. -/
inductive VisionError
  | INSUFFICIENT_POSE_DATA
  | LOW_CONFIDENCE
  | JUMP_TOO_SMALL
deriving DecidableEq

/-- Embeds the ascending numeric sort of pose module line 218, the JS sort
with comparator a - b.  Modelled by insertion sort: on a list of rational
values every ascending sort produces the same list. -/
def sortAsc (xs : List ℚ) : List ℚ := xs.insertionSort (fun a b => a ≤ b)

/-- Embeds the rounding of pose module line 269: Math.round(x * 10) / 10. -/
def round1 (x : ℚ) : ℚ := (jsRound (x * 10) : ℚ) / 10

/-- Embeds the calibration block of calculateJumpHeight, pose module lines
212-228: with at least 3 body-height samples, the scale comes from the
sorted sample at index length / 2 divided by 0.9; otherwise from 70
percent of the video height. -/
def pixelScaleOf (bodyHeights : List ℚ) (userHeightCm videoHeight : ℚ) : ℚ :=
  if bodyHeights.length ≥ 3 then
    let sortedHeights := sortAsc bodyHeights
    let medianBodyHeight := sortedHeights.getD (sortedHeights.length / 2) 0
    let estimatedFullHeightPixels := medianBodyHeight / 0.9
    userHeightCm / estimatedFullHeightPixels
  else
    let estimatedHeightPixels := videoHeight * 0.7
    userHeightCm / estimatedHeightPixels

/-- Embeds Math.max over the mapped hip y values, pose module line 240.
The empty case (JS negative infinity) is unreachable at every call site,
which requires at least 5 observations; it is modelled as 0. -/
def maxY : List HipObs → ℚ
  | [] => 0
  | p :: ps => ps.foldl (fun acc q => max acc q.y) p.y

/-- Embeds Math.min over the mapped hip y values, pose module line 245;
empty case modelled as 0, unreachable at the call site. -/
def minY : List HipObs → ℚ
  | [] => 0
  | p :: ps => ps.foldl (fun acc q => min acc q.y) p.y

/-- Embeds the standing-baseline block, pose module lines 230-241: the mean
hip y of the filtered observations in the first second when at least 2
exist, otherwise the maximum hip y over all filtered observations. -/
def standingHipYOf (confidentPositions : List HipObs) : ℚ :=
  let standingFrames := confidentPositions.filter (fun p => p.time < 1)
  if standingFrames.length ≥ 2 then
    ((standingFrames.map (fun p => p.y)).sum) / (standingFrames.length : ℚ)
  else
    maxY confidentPositions

/-- Embeds the sanity-check tail of calculateJumpHeight, pose module lines
253-269: clamp negatives to 0, halve once above 120, fail below 5, round
to one decimal. -/
def sanityAdjust (jumpHeightCm : ℚ) : Except VisionError ℚ :=
  let h1 := if jumpHeightCm < 0 then 0 else jumpHeightCm
  let h2 := if h1 > 120 then h1 * 0.5 else h1
  if h2 < 5 then .error .JUMP_TOO_SMALL
  else .ok (round1 h2)

/-- Embeds calculateJumpHeight of the pose module, lines 200-270: the full
aggregation pipeline from hip observations and body-height samples to a
final height or a typed failure. -/
def calculateJumpHeight (hipPositions : List HipObs) (bodyHeights : List ℚ)
    (userHeightCm videoHeight : ℚ) : Except VisionError ℚ :=
  if hipPositions.length < 5 then .error .INSUFFICIENT_POSE_DATA
  else
    let confidentPositions := hipPositions.filter (fun p => p.confidence > 0.4)
    if confidentPositions.length < 5 then .error .LOW_CONFIDENCE
    else
      let pixelScale := pixelScaleOf bodyHeights userHeightCm videoHeight
      let standingHipY := standingHipYOf confidentPositions
      let peakHipY := minY confidentPositions
      let displacementPixels := standingHipY - peakHipY
      let jumpHeightCm := displacementPixels * pixelScale
      sanityAdjust jumpHeightCm

/-- Embeds the sampling rate of analyzeJump, pose module line 52. -/
def fps : ℚ := 15

/-- Embeds totalFrames of analyzeJump, pose module line 53:
Math.floor(duration * fps), with a negative product yielding an empty
loop exactly as in the source. -/
def totalFrames (duration : ℚ) : ℕ := (⌊duration * fps⌋).toNat

/-- Embeds the progress reports of analyzeJump, pose module lines 60 and
94-97: iteration i of the loop reports Math.round((i / totalFrames) * 100). -/
def progressSeq (n : ℕ) : List ℤ :=
  (List.range n).map (fun i : ℕ => jsRound ((i : ℚ) / (n : ℚ) * 100))

/-- Synthetic observation sequence for the C7 example: standing hip y 500
during the first second, peak hip y 400, all confidences 0.9. -/
def exHips : List HipObs :=
  [⟨0, 500, 9/10⟩, ⟨1/2, 500, 9/10⟩, ⟨3/2, 450, 9/10⟩, ⟨2, 400, 9/10⟩,
   ⟨5/2, 480, 9/10⟩]

/-- Keypoint set for the C8 counterexample: a single confident left hip
and no right hip keypoint at all. -/
def soloLeftHip : List Keypoint := [⟨.left_hip, 100, 9/10⟩]

/-- Keypoint set with both hips present and confident, used by witnesses. -/
def bothHips : List Keypoint :=
  [⟨.left_hip, 10, 9/10⟩, ⟨.right_hip, 20, 8/10⟩]

/-- Keypoint set with both ankles confident, used by the C10 witness. -/
def bothAnkles : List Keypoint :=
  [⟨.left_ankle, 10, 1/2⟩, ⟨.right_ankle, 20, 1/2⟩]

end PoseAnalyzer

end JumpCalc

namespace JumpCalc

/-- C1 counterexample: the claim asserts that airTime 0.3 yields 44.1 cm,
but the manual estimator formula 490.5 * t^2 yields exactly 44.145 cm at
t = 0.3, so the quoted example value is wrong. -/
theorem claim_C1_cex :
    App.calculateJumpHeight (3/10) = 44.145 ∧
    App.calculateJumpHeight (3/10) ≠ 44.1 := by
  constructor <;> norm_num [App.calculateJumpHeight, App.GRAVITY]

/-- C1 amended: for every airTime > 0 the manual kinematic estimator
returns heightCm = 0.5 * 9.81 * airTime^2 * 100 = 490.5 * airTime^2, with
no upper or lower clamping; airTime 0.3 gives 44.145 (not 44.1), 0.4
gives 78.48, 0.5 gives 122.625. -/
theorem claim_C1 :
    (∀ t : ℚ, 0 < t →
      App.calculateJumpHeight t = 0.5 * 9.81 * t ^ 2 * 100 ∧
      App.calculateJumpHeight t = 490.5 * t ^ 2) ∧
    App.calculateJumpHeight (3/10) = 44.145 ∧
    App.calculateJumpHeight (4/10) = 78.48 ∧
    App.calculateJumpHeight (5/10) = 122.625 := by
  refine ⟨fun t ht => ⟨?_, ?_⟩, ?_, ?_, ?_⟩ <;>
    · norm_num [App.calculateJumpHeight, App.GRAVITY]
      try ring

/-- C1 witness: the amended claim instantiated at airTime 1. -/
theorem claim_C1_witness :
    App.calculateJumpHeight 1 = 0.5 * 9.81 * 1 ^ 2 * 100 ∧
    App.calculateJumpHeight 1 = 490.5 * 1 ^ 2 :=
  claim_C1.1 1 (by norm_num)

/-- C2 counterexample: with takeoff mark 2 and peak mark 1 the pair is
invalid (peak.time ≤ takeoff.time), yet the engine path of
calculateAndShowResults returns the height 490.5 instead of failing:
the code has no INVALID_MARK_ORDER check on the calculation path. -/
theorem claim_C2_cex :
    (1 : ℚ) ≤ 2 ∧ App.calculateAndShowResults 2 1 = 490.5 := by
  constructor
  · norm_num
  · norm_num [App.calculateAndShowResults, App.calculateJumpHeight, App.GRAVITY]

/-- C2 amended: the engine performs no mark-order check; for every pair of
marks calculateAndShowResults returns 490.5 * (peak - takeoff)^2, even when
peak.time ≤ takeoff.time.  The ordering precondition is enforced only by
the UI: updateCalculateButton disables calculation unless both marks are
set and peak.time > takeoff.time. -/
theorem claim_C2 :
    (∀ takeoff peak : ℚ,
      App.calculateAndShowResults takeoff peak = 490.5 * (peak - takeoff) ^ 2) ∧
    (∀ takeoff peak : ℚ, peak ≤ takeoff →
      App.canCalculate (some takeoff) (some peak) = false) ∧
    (∀ o : Option ℚ, App.canCalculate o none = false) ∧
    (∀ o : Option ℚ, App.canCalculate none o = false) := by
  refine ⟨fun t p => ?_, fun t p h => ?_, fun o => ?_, fun o => ?_⟩
  · norm_num [App.calculateAndShowResults, App.calculateJumpHeight, App.GRAVITY]
    ring
  · simp only [App.canCalculate, decide_eq_false_iff_not]
    exact not_lt.mpr h
  · cases o <;> rfl
  · cases o <;> rfl

/-- C2 witness: the amended claim instantiated at the coincident marks
takeoff 1, peak 1, where the UI guard reports the pair invalid. -/
theorem claim_C2_witness : App.canCalculate (some 1) (some 1) = false :=
  claim_C2.2.1 1 1 (by norm_num)

/-- C3: the classifier matches the six-interval table exactly on the
nonnegative reals, is monotone in the category ladder, and takes the
claimed values at 29.9, 30, 45.9, 46, 75.9, 76 and 1000. -/
theorem claim_C3 :
    (∀ x : ℚ, 0 ≤ x → x < 30 → App.getJumpCategory x = .beginner) ∧
    (∀ x : ℚ, 30 ≤ x → x < 46 → App.getJumpCategory x = .average) ∧
    (∀ x : ℚ, 46 ≤ x → x < 56 → App.getJumpCategory x = .good) ∧
    (∀ x : ℚ, 56 ≤ x → x < 66 → App.getJumpCategory x = .great) ∧
    (∀ x : ℚ, 66 ≤ x → x < 76 → App.getJumpCategory x = .excellent) ∧
    (∀ x : ℚ, 76 ≤ x → App.getJumpCategory x = .elite) ∧
    (∀ a b : ℚ, a ≤ b →
      (App.getJumpCategory a).idx ≤ (App.getJumpCategory b).idx) ∧
    App.getJumpCategory 29.9 = .beginner ∧
    App.getJumpCategory 30 = .average ∧
    App.getJumpCategory 45.9 = .average ∧
    App.getJumpCategory 46 = .good ∧
    App.getJumpCategory 75.9 = .excellent ∧
    App.getJumpCategory 76 = .elite ∧
    App.getJumpCategory 1000 = .elite := by
  refine ⟨?_, ?_, ?_, ?_, ?_, ?_, ?_, ?_, ?_, ?_, ?_, ?_, ?_, ?_⟩
  · intro x h1 h2
    unfold App.getJumpCategory
    split_ifs <;> first | rfl | (exfalso; linarith)
  · intro x h1 h2
    unfold App.getJumpCategory
    split_ifs <;> first | rfl | (exfalso; linarith)
  · intro x h1 h2
    unfold App.getJumpCategory
    split_ifs <;> first | rfl | (exfalso; linarith)
  · intro x h1 h2
    unfold App.getJumpCategory
    split_ifs <;> first | rfl | (exfalso; linarith)
  · intro x h1 h2
    unfold App.getJumpCategory
    split_ifs <;> first | rfl | (exfalso; linarith)
  · intro x h1
    unfold App.getJumpCategory
    split_ifs <;> first | rfl | (exfalso; linarith)
  · intro a b hab
    unfold App.getJumpCategory
    split_ifs <;> simp only [App.JumpCategory.idx] <;>
      first | decide | (exfalso; linarith)
  all_goals norm_num [App.getJumpCategory]

/-- C3 witness: the table case [0, 30) and the monotonicity instance 10 ≤ 80
of the classifier. -/
theorem claim_C3_witness :
    App.getJumpCategory 10 = .beginner ∧
    (App.getJumpCategory 10).idx ≤ (App.getJumpCategory 80).idx :=
  ⟨claim_C3.1 10 (by norm_num) (by norm_num),
   claim_C3.2.2.2.2.2.2.1 10 80 (by norm_num)⟩

/-- C4: the sanity adjustment replaces a negative raw height by 0 (which
then fails as below 5), halves a value above 120 exactly once without
re-checking (250 becomes 125 and is returned although 125 > 120), fails
with JUMP_TOO_SMALL below 5, and otherwise returns the value rounded to
one decimal place. -/
theorem claim_C4 :
    (∀ h : ℚ, h < 0 → PoseAnalyzer.sanityAdjust h = PoseAnalyzer.sanityAdjust 0) ∧
    (∀ h : ℚ, h < 0 →
      PoseAnalyzer.sanityAdjust h = .error .JUMP_TOO_SMALL) ∧
    (∀ h : ℚ, 0 ≤ h → h < 5 →
      PoseAnalyzer.sanityAdjust h = .error .JUMP_TOO_SMALL) ∧
    (∀ h : ℚ, 5 ≤ h → h ≤ 120 →
      PoseAnalyzer.sanityAdjust h = .ok (PoseAnalyzer.round1 h)) ∧
    (∀ h : ℚ, 120 < h →
      PoseAnalyzer.sanityAdjust h = .ok (PoseAnalyzer.round1 (h * 0.5))) ∧
    PoseAnalyzer.sanityAdjust 250 = .ok 125 ∧ (120 : ℚ) < 125 := by
  have herr : ∀ h : ℚ, h < 0 →
      PoseAnalyzer.sanityAdjust h = .error .JUMP_TOO_SMALL := by
    intro h hh
    simp only [PoseAnalyzer.sanityAdjust]
    split_ifs <;> first | rfl | (exfalso; linarith)
  refine ⟨?_, herr, ?_, ?_, ?_, ?_, by norm_num⟩
  · intro h hh
    rw [herr h hh]
    norm_num [PoseAnalyzer.sanityAdjust]
  · intro h h1 h2
    simp only [PoseAnalyzer.sanityAdjust]
    split_ifs <;> first | rfl | (exfalso; linarith)
  · intro h h1 h2
    simp only [PoseAnalyzer.sanityAdjust]
    split_ifs <;> first | rfl | (exfalso; linarith)
  · intro h h1
    simp only [PoseAnalyzer.sanityAdjust]
    split_ifs <;> first | rfl | (exfalso; linarith)
  · norm_num [PoseAnalyzer.sanityAdjust, PoseAnalyzer.round1, jsRound]

/-- C4 witness: the in-range case at raw height 20, returned rounded. -/
theorem claim_C4_witness :
    PoseAnalyzer.sanityAdjust 20 = .ok (PoseAnalyzer.round1 20) :=
  claim_C4.2.2.2.1 20 (by norm_num) (by norm_num)

end JumpCalc

namespace JumpCalc

/-- C5: the aggregation stage of the vision estimator fails with
INSUFFICIENT_POSE_DATA when fewer than 5 raw hip observations exist, and
otherwise fails with LOW_CONFIDENCE when fewer than 5 observations have
confidence strictly above 0.4; in both cases no height is returned. -/
theorem claim_C5 :
    ∀ (hips : List PoseAnalyzer.HipObs) (bodies : List ℚ) (u v : ℚ),
    (hips.length < 5 →
      PoseAnalyzer.calculateJumpHeight hips bodies u v =
        .error .INSUFFICIENT_POSE_DATA) ∧
    (5 ≤ hips.length →
      (hips.filter fun p => p.confidence > 0.4).length < 5 →
      PoseAnalyzer.calculateJumpHeight hips bodies u v =
        .error .LOW_CONFIDENCE) := by
  intro hips bodies u v
  constructor
  · intro h
    simp only [PoseAnalyzer.calculateJumpHeight, if_pos h]
  · intro h5 hf
    simp only [PoseAnalyzer.calculateJumpHeight]
    rw [if_neg (by omega), if_pos hf]

/-- C5 witness: the empty observation list fails with
INSUFFICIENT_POSE_DATA. -/
theorem claim_C5_witness :
    PoseAnalyzer.calculateJumpHeight [] [] 1 1 =
      .error .INSUFFICIENT_POSE_DATA :=
  (claim_C5 [] [] 1 1).1 (by simp)

/-- C6: with at least 3 body-height samples the calibration scale is
userHeightCm divided by (m / 0.9), where m is the element at index
floor(n/2) of the ascending sort of the samples; with fewer than 3 samples
it is userHeightCm / (videoHeight * 0.7).  The sort used is a genuine
ascending sort: a sorted permutation of the input. -/
theorem claim_C6 :
    ∀ (bodies : List ℚ) (u v : ℚ),
    (PoseAnalyzer.sortAsc bodies).Perm bodies ∧
    List.Sorted (fun a b => a ≤ b) (PoseAnalyzer.sortAsc bodies) ∧
    (PoseAnalyzer.sortAsc bodies).length = bodies.length ∧
    (3 ≤ bodies.length →
      PoseAnalyzer.pixelScaleOf bodies u v =
        u / ((PoseAnalyzer.sortAsc bodies).getD (bodies.length / 2) 0 / (9/10))) ∧
    (bodies.length < 3 →
      PoseAnalyzer.pixelScaleOf bodies u v = u / (v * (7/10))) := by
  intro bodies u v
  have hperm := List.perm_insertionSort (fun a b : ℚ => a ≤ b) bodies
  have hlen : (PoseAnalyzer.sortAsc bodies).length = bodies.length :=
    hperm.length_eq
  refine ⟨hperm, List.sorted_insertionSort _ bodies, hlen, ?_, ?_⟩
  · intro h3
    simp only [PoseAnalyzer.pixelScaleOf, if_pos h3]
    rw [hlen]
    norm_num
  · intro h3
    simp only [PoseAnalyzer.pixelScaleOf]
    rw [if_neg (by omega)]
    norm_num

/-- C6 witness: the median branch on the concrete sample list 3, 1, 2. -/
theorem claim_C6_witness :
    PoseAnalyzer.pixelScaleOf [3, 1, 2] 170 100 =
      170 / ((PoseAnalyzer.sortAsc [3, 1, 2]).getD (([3, 1, 2] : List ℚ).length / 2) 0 / (9/10)) :=
  (claim_C6 [3, 1, 2] 170 100).2.2.2.1 (by norm_num)

end JumpCalc
namespace JumpCalc


/-- Helper: the initial accumulator is below the max fold over hip ys. -/
lemma foldl_maxY_init_le (ps : List PoseAnalyzer.HipObs) (a : ℚ) :
    a ≤ ps.foldl (fun acc q => max acc q.y) a := by
  induction ps generalizing a with
  | nil => simp
  | cons q ps ih => exact le_trans (le_max_left a q.y) (ih (max a q.y))

/-- Helper: every member is below the max fold over hip ys. -/
lemma foldl_maxY_mem_le {ps : List PoseAnalyzer.HipObs} {p : PoseAnalyzer.HipObs}
    (hp : p ∈ ps) (a : ℚ) :
    p.y ≤ ps.foldl (fun acc q => max acc q.y) a := by
  induction ps generalizing a with
  | nil => cases hp
  | cons q ps ih =>
    simp only [List.foldl_cons]
    rcases List.mem_cons.mp hp with h | h
    · subst h
      exact le_trans (le_max_right a p.y) (foldl_maxY_init_le ps _)
    · exact ih h _

/-- Helper: the max fold over hip ys is the accumulator or some member. -/
lemma foldl_maxY_cases (ps : List PoseAnalyzer.HipObs) (a : ℚ) :
    ps.foldl (fun acc q => max acc q.y) a = a ∨
      ∃ q ∈ ps, ps.foldl (fun acc q => max acc q.y) a = q.y := by
  induction ps generalizing a with
  | nil => exact Or.inl rfl
  | cons q ps ih =>
    simp only [List.foldl_cons]
    rcases ih (max a q.y) with h | ⟨r, hr, he⟩
    · rcases max_choice a q.y with hm | hm
      · exact Or.inl (by rw [h, hm])
      · exact Or.inr ⟨q, List.mem_cons_self q ps, by rw [h, hm]⟩
    · exact Or.inr ⟨r, List.mem_cons_of_mem q hr, he⟩

/-- Helper: the min fold over hip ys is below the initial accumulator. -/
lemma foldl_minY_le_init (ps : List PoseAnalyzer.HipObs) (a : ℚ) :
    ps.foldl (fun acc q => min acc q.y) a ≤ a := by
  induction ps generalizing a with
  | nil => simp
  | cons q ps ih => exact le_trans (ih (min a q.y)) (min_le_left a q.y)

/-- Helper: the min fold over hip ys is below every member. -/
lemma foldl_minY_le_mem {ps : List PoseAnalyzer.HipObs} {p : PoseAnalyzer.HipObs}
    (hp : p ∈ ps) (a : ℚ) :
    ps.foldl (fun acc q => min acc q.y) a ≤ p.y := by
  induction ps generalizing a with
  | nil => cases hp
  | cons q ps ih =>
    simp only [List.foldl_cons]
    rcases List.mem_cons.mp hp with h | h
    · subst h
      exact le_trans (foldl_minY_le_init ps _) (min_le_right a p.y)
    · exact ih h _

/-- Helper: the min fold over hip ys is the accumulator or some member. -/
lemma foldl_minY_cases (ps : List PoseAnalyzer.HipObs) (a : ℚ) :
    ps.foldl (fun acc q => min acc q.y) a = a ∨
      ∃ q ∈ ps, ps.foldl (fun acc q => min acc q.y) a = q.y := by
  induction ps generalizing a with
  | nil => exact Or.inl rfl
  | cons q ps ih =>
    simp only [List.foldl_cons]
    rcases ih (min a q.y) with h | ⟨r, hr, he⟩
    · rcases min_choice a q.y with hm | hm
      · exact Or.inl (by rw [h, hm])
      · exact Or.inr ⟨q, List.mem_cons_self q ps, by rw [h, hm]⟩
    · exact Or.inr ⟨r, List.mem_cons_of_mem q hr, he⟩

/-- Helper: maxY bounds every member of a hip observation list. -/
lemma le_maxY {c : List PoseAnalyzer.HipObs} {p : PoseAnalyzer.HipObs}
    (hp : p ∈ c) : p.y ≤ PoseAnalyzer.maxY c := by
  cases c with
  | nil => cases hp
  | cons q ps =>
    simp only [PoseAnalyzer.maxY]
    rcases List.mem_cons.mp hp with h | h
    · subst h
      exact foldl_maxY_init_le ps _
    · exact foldl_maxY_mem_le h _

/-- Helper: maxY of a nonempty hip observation list is attained. -/
lemma maxY_mem {c : List PoseAnalyzer.HipObs} (hc : c ≠ []) :
    ∃ p ∈ c, PoseAnalyzer.maxY c = p.y := by
  cases c with
  | nil => exact absurd rfl hc
  | cons q ps =>
    simp only [PoseAnalyzer.maxY]
    rcases foldl_maxY_cases ps q.y with h | ⟨r, hr, he⟩
    · exact ⟨q, List.mem_cons_self q ps, h⟩
    · exact ⟨r, List.mem_cons_of_mem q hr, he⟩

/-- Helper: minY is below every member of a hip observation list. -/
lemma minY_le {c : List PoseAnalyzer.HipObs} {p : PoseAnalyzer.HipObs}
    (hp : p ∈ c) : PoseAnalyzer.minY c ≤ p.y := by
  cases c with
  | nil => cases hp
  | cons q ps =>
    simp only [PoseAnalyzer.minY]
    rcases List.mem_cons.mp hp with h | h
    · subst h
      exact foldl_minY_le_init ps _
    · exact foldl_minY_le_mem h _

/-- Helper: minY of a nonempty hip observation list is attained. -/
lemma minY_mem {c : List PoseAnalyzer.HipObs} (hc : c ≠ []) :
    ∃ p ∈ c, PoseAnalyzer.minY c = p.y := by
  cases c with
  | nil => exact absurd rfl hc
  | cons q ps =>
    simp only [PoseAnalyzer.minY]
    rcases foldl_minY_cases ps q.y with h | ⟨r, hr, he⟩
    · exact ⟨q, List.mem_cons_self q ps, h⟩
    · exact ⟨r, List.mem_cons_of_mem q hr, he⟩

/-- C7: for every nonempty confidence-filtered list, the standing baseline
is the mean hip y of the observations in the first second when at least 2
exist and otherwise the maximum hip y (a genuine attained maximum); the
peak is the minimum hip y (a genuine attained minimum); the raw height fed
to the sanity step is (standing - peak) * pixelScale; and the synthetic
sequence with standing 500, peak 400 and scale 0.2 yields 20 cm. -/
theorem claim_C7 :
    (∀ c : List PoseAnalyzer.HipObs, c ≠ [] →
      (2 ≤ (c.filter fun p => p.time < 1).length →
        PoseAnalyzer.standingHipYOf c =
          ((c.filter fun p => p.time < 1).map (fun p => p.y)).sum /
            ((c.filter fun p => p.time < 1).length : ℚ)) ∧
      ((c.filter fun p => p.time < 1).length < 2 →
        PoseAnalyzer.standingHipYOf c = PoseAnalyzer.maxY c) ∧
      (∀ p ∈ c, p.y ≤ PoseAnalyzer.maxY c) ∧
      (∃ p ∈ c, PoseAnalyzer.maxY c = p.y) ∧
      (∀ p ∈ c, PoseAnalyzer.minY c ≤ p.y) ∧
      (∃ p ∈ c, PoseAnalyzer.minY c = p.y)) ∧
    (∀ (hips : List PoseAnalyzer.HipObs) (bodies : List ℚ) (u v : ℚ),
      5 ≤ hips.length →
      5 ≤ (hips.filter fun p => p.confidence > 0.4).length →
      PoseAnalyzer.calculateJumpHeight hips bodies u v =
        PoseAnalyzer.sanityAdjust
          ((PoseAnalyzer.standingHipYOf (hips.filter fun p => p.confidence > 0.4) -
            PoseAnalyzer.minY (hips.filter fun p => p.confidence > 0.4)) *
            PoseAnalyzer.pixelScaleOf bodies u v)) ∧
    PoseAnalyzer.standingHipYOf
      (PoseAnalyzer.exHips.filter fun p => p.confidence > 0.4) = 500 ∧
    PoseAnalyzer.minY
      (PoseAnalyzer.exHips.filter fun p => p.confidence > 0.4) = 400 ∧
    PoseAnalyzer.pixelScaleOf [] 70 500 = 1/5 ∧
    PoseAnalyzer.calculateJumpHeight PoseAnalyzer.exHips [] 70 500 = .ok 20 := by
  refine ⟨?_, ?_, ?_, ?_, ?_, ?_⟩
  · intro c hc
    refine ⟨?_, ?_, fun p hp => le_maxY hp, maxY_mem hc,
      fun p hp => minY_le hp, minY_mem hc⟩
    · intro h2
      simp only [PoseAnalyzer.standingHipYOf]
      rw [if_pos h2]
    · intro h2
      simp only [PoseAnalyzer.standingHipYOf]
      rw [if_neg (by omega)]
  · intro hips bodies u v h5 hf
    simp only [PoseAnalyzer.calculateJumpHeight]
    rw [if_neg (by omega), if_neg (by omega)]
  · norm_num [PoseAnalyzer.exHips, PoseAnalyzer.standingHipYOf, List.filter,
      PoseAnalyzer.maxY, PoseAnalyzer.minConfidence]
  · norm_num [PoseAnalyzer.exHips, PoseAnalyzer.minY, List.filter]
  · norm_num [PoseAnalyzer.pixelScaleOf]
  · norm_num [PoseAnalyzer.calculateJumpHeight, PoseAnalyzer.exHips,
      List.filter, PoseAnalyzer.standingHipYOf, PoseAnalyzer.minY,
      PoseAnalyzer.pixelScaleOf, PoseAnalyzer.sanityAdjust,
      PoseAnalyzer.round1, jsRound]

/-- C7 witness: the displacement-conversion identity instantiated at the
synthetic example sequence. -/
theorem claim_C7_witness :
    PoseAnalyzer.calculateJumpHeight PoseAnalyzer.exHips [] 70 500 =
      PoseAnalyzer.sanityAdjust
        ((PoseAnalyzer.standingHipYOf
            (PoseAnalyzer.exHips.filter fun p => p.confidence > 0.4) -
          PoseAnalyzer.minY
            (PoseAnalyzer.exHips.filter fun p => p.confidence > 0.4)) *
          PoseAnalyzer.pixelScaleOf [] 70 500) :=
  claim_C7.2.1 PoseAnalyzer.exHips [] 70 500 (by norm_num [PoseAnalyzer.exHips])
    (by norm_num [PoseAnalyzer.exHips, List.filter])

end JumpCalc

namespace JumpCalc

/-- C8 counterexample: a keypoint set whose left hip is present with
confidence 0.9 (above the 0.3 threshold) but whose right hip keypoint is
absent yields no HipObservation: extractPoseData returns none before the
confidence chain runs, refuting the claim that one confident hip alone
always produces an observation. -/
theorem claim_C8_cex :
    PoseAnalyzer.getKeypoint PoseAnalyzer.soloLeftHip .left_hip =
      some ⟨.left_hip, 100, 9/10⟩ ∧
    PoseAnalyzer.minConfidence < (9/10 : ℚ) ∧
    PoseAnalyzer.getKeypoint PoseAnalyzer.soloLeftHip .right_hip = none ∧
    PoseAnalyzer.extractPoseData PoseAnalyzer.soloLeftHip = none := by
  refine ⟨rfl, by norm_num [PoseAnalyzer.minConfidence], rfl, rfl⟩

/-- C8 amended: when both hip keypoints are present in the set, selection
averages positions and confidences when both exceed 0.3, uses the single
confident hip when exactly one exceeds 0.3, and skips the frame when
neither does; when either hip keypoint is absent the frame is skipped
regardless of the confidence of the other. -/
theorem claim_C8 :
    (∀ (kps : List PoseAnalyzer.Keypoint) (lh rh : PoseAnalyzer.Keypoint),
      PoseAnalyzer.getKeypoint kps .left_hip = some lh →
      PoseAnalyzer.getKeypoint kps .right_hip = some rh →
      (lh.score > PoseAnalyzer.minConfidence →
        rh.score > PoseAnalyzer.minConfidence →
        PoseAnalyzer.extractPoseData kps =
          some ⟨(lh.y + rh.y) / 2, (lh.score + rh.score) / 2,
            PoseAnalyzer.bodyHeightOf kps⟩) ∧
      (lh.score > PoseAnalyzer.minConfidence →
        ¬rh.score > PoseAnalyzer.minConfidence →
        PoseAnalyzer.extractPoseData kps =
          some ⟨lh.y, lh.score, PoseAnalyzer.bodyHeightOf kps⟩) ∧
      (¬lh.score > PoseAnalyzer.minConfidence →
        rh.score > PoseAnalyzer.minConfidence →
        PoseAnalyzer.extractPoseData kps =
          some ⟨rh.y, rh.score, PoseAnalyzer.bodyHeightOf kps⟩) ∧
      (¬lh.score > PoseAnalyzer.minConfidence →
        ¬rh.score > PoseAnalyzer.minConfidence →
        PoseAnalyzer.extractPoseData kps = none)) ∧
    (∀ kps : List PoseAnalyzer.Keypoint,
      PoseAnalyzer.getKeypoint kps .left_hip = none →
      PoseAnalyzer.extractPoseData kps = none) ∧
    (∀ kps : List PoseAnalyzer.Keypoint,
      PoseAnalyzer.getKeypoint kps .right_hip = none →
      PoseAnalyzer.extractPoseData kps = none) := by
  refine ⟨?_, ?_, ?_⟩
  · intro kps lh rh hl hr
    refine ⟨?_, ?_, ?_, ?_⟩ <;> intro h1 h2 <;>
      simp only [PoseAnalyzer.extractPoseData, hl, hr] <;>
      split_ifs <;> first | rfl | tauto
  · intro kps h
    rcases hr : PoseAnalyzer.getKeypoint kps .right_hip with _ | rh <;>
      simp only [PoseAnalyzer.extractPoseData, h, hr]
  · intro kps h
    rcases hl : PoseAnalyzer.getKeypoint kps .left_hip with _ | lh <;>
      simp only [PoseAnalyzer.extractPoseData, h, hl]

/-- C8 witness: both hips present and confident fuse by averaging. -/
theorem claim_C8_witness :
    PoseAnalyzer.extractPoseData PoseAnalyzer.bothHips =
      some ⟨(10 + 20) / 2, (9/10 + 8/10) / 2,
        PoseAnalyzer.bodyHeightOf PoseAnalyzer.bothHips⟩ :=
  (claim_C8.1 PoseAnalyzer.bothHips ⟨.left_hip, 10, 9/10⟩ ⟨.right_hip, 20, 8/10⟩
      rfl rfl).1
    (by norm_num [PoseAnalyzer.minConfidence])
    (by norm_num [PoseAnalyzer.minConfidence])

end JumpCalc

namespace JumpCalc

/-- C9 counterexample: for a video of duration 2/3 seconds there are 10
sampled frames and the final reported percentage is round(9/10 * 100) = 90,
not 100, refuting the claim that the sequence reaches 100 by the final
sampled frame. -/
theorem claim_C9_cex :
    PoseAnalyzer.totalFrames (2/3) = 10 ∧
    PoseAnalyzer.progressSeq 10 = [0, 10, 20, 30, 40, 50, 60, 70, 80, 90] ∧
    ((90 : ℤ) ≠ 100) := by
  refine ⟨?_, ?_, by norm_num⟩
  · have hf : ⌊(2/3 : ℚ) * 15⌋ = 10 := by norm_num
    simp [PoseAnalyzer.totalFrames, PoseAnalyzer.fps, hf]
  · norm_num [PoseAnalyzer.progressSeq, List.range_succ, jsRound]

/-- C9 amended: the progress callback is invoked once per sampled frame i
with round(i / totalSamples * 100); the reported sequence is monotonically
non-decreasing, and its final value is round((totalSamples - 1) /
totalSamples * 100), which equals 100 exactly when totalSamples is at
least 200 (not in general). -/
theorem claim_C9 :
    ∀ n : ℕ, 1 ≤ n →
    (PoseAnalyzer.progressSeq n).length = n ∧
    (∀ i : ℕ, i < n →
      (PoseAnalyzer.progressSeq n).getD i 0 = jsRound ((i : ℚ) / n * 100)) ∧
    (∀ i j : ℕ, i ≤ j → j < n →
      (PoseAnalyzer.progressSeq n).getD i 0 ≤
        (PoseAnalyzer.progressSeq n).getD j 0) ∧
    (PoseAnalyzer.progressSeq n).getLast? =
      some (jsRound (((n : ℚ) - 1) / n * 100)) ∧
    ((PoseAnalyzer.progressSeq n).getLast? = some 100 ↔ 200 ≤ n) := by
  intro n hn
  have hn0 : (0 : ℚ) < n := by
    have h1 : (1 : ℚ) ≤ n := by exact_mod_cast hn
    linarith
  have hget : ∀ i : ℕ, i < n →
      (PoseAnalyzer.progressSeq n).getD i 0 = jsRound ((i : ℚ) / n * 100) := by
    intro i hi
    simp only [PoseAnalyzer.progressSeq]
    rw [List.getD_eq_getElem?_getD, List.getElem?_map, List.getElem?_range hi]
    rfl
  have hlen : (PoseAnalyzer.progressSeq n).length = n := by
    simp only [PoseAnalyzer.progressSeq, List.length_map, List.length_range]
  have hlast : (PoseAnalyzer.progressSeq n).getLast? =
      some (jsRound (((n : ℚ) - 1) / n * 100)) := by
    have h1 : n - 1 < n := by omega
    rw [List.getLast?_eq_getElem?, hlen]
    simp only [PoseAnalyzer.progressSeq]
    rw [List.getElem?_map, List.getElem?_range h1]
    have hmap : Option.map (fun i : ℕ => jsRound ((i : ℚ) / n * 100)) (some (n - 1)) =
        some (jsRound (((n - 1 : ℕ) : ℚ) / n * 100)) := rfl
    rw [hmap, Nat.cast_sub hn, Nat.cast_one]
  have hid : ((n : ℚ) - 1) / n * 100 = 100 - 100 / n := by
    field_simp
    ring
  refine ⟨hlen, hget, ?_, hlast, ?_⟩
  · intro i j hij hj
    rw [hget i (lt_of_le_of_lt hij hj), hget j hj]
    unfold jsRound
    apply Int.floor_le_floor
    have hij2 : (i : ℚ) ≤ j := by exact_mod_cast hij
    gcongr
  · rw [hlast]
    constructor
    · intro h
      have h100 : jsRound (((n : ℚ) - 1) / n * 100) = 100 := Option.some_inj.mp h
      unfold jsRound at h100
      rw [Int.floor_eq_iff] at h100
      have hkey : (100 : ℚ) ≤ ((n : ℚ) - 1) / n * 100 + 1/2 := by
        have hlow := h100.1
        push_cast at hlow
        linarith
      rw [hid] at hkey
      have hfrac : (100 : ℚ) / n ≤ 1/2 := by linarith
      rw [div_le_div_iff₀ hn0 (by norm_num : (0:ℚ) < 2)] at hfrac
      have h200 : (200 : ℚ) ≤ n := by linarith
      exact_mod_cast h200
    · intro h
      have h200 : (200 : ℚ) ≤ n := by exact_mod_cast h
      have hfrac : (100 : ℚ) / n ≤ 1/2 := by
        rw [div_le_div_iff₀ hn0 (by norm_num : (0:ℚ) < 2)]
        linarith
      have hpos : (0 : ℚ) < 100 / n := by positivity
      congr 1
      unfold jsRound
      rw [Int.floor_eq_iff]
      constructor
      · push_cast
        rw [hid]
        linarith
      · push_cast
        rw [hid]
        linarith

/-- C9 witness: the amended claim instantiated at 10 sampled frames. -/
theorem claim_C9_witness :
    (PoseAnalyzer.progressSeq 10).getLast? =
      some (jsRound (((10 : ℚ) - 1) / 10 * 100)) :=
  (claim_C9 10 (by norm_num)).2.2.2.1

end JumpCalc

namespace JumpCalc

/-- Helper: every record returned by extractPoseData carries the frame's
bodyHeightOf value in its bodyHeight field. -/
lemma extract_bodyHeight {kps : List PoseAnalyzer.Keypoint}
    {pd : PoseAnalyzer.PoseData}
    (h : PoseAnalyzer.extractPoseData kps = some pd) :
    pd.bodyHeight = PoseAnalyzer.bodyHeightOf kps := by
  rcases hl : PoseAnalyzer.getKeypoint kps .left_hip with _ | lh
  · rcases hr : PoseAnalyzer.getKeypoint kps .right_hip with _ | rh <;>
      simp only [PoseAnalyzer.extractPoseData, hl, hr] at h <;>
      exact Option.noConfusion h
  · rcases hr : PoseAnalyzer.getKeypoint kps .right_hip with _ | rh
    · simp only [PoseAnalyzer.extractPoseData, hl, hr] at h
      exact Option.noConfusion h
    · simp only [PoseAnalyzer.extractPoseData, hl, hr] at h
      split_ifs at h <;>
        first
        | exact Option.noConfusion h
        | (injection h with h2; subst h2; rfl)

/-- C10: a calibration sample is collected for a frame exactly when the
frame yields a HipObservation, the nose is confident, at least one ankle
is confident, and the nose-to-ankle span is strictly positive; a single
confident ankle contributes its own y instead of the midpoint, and a frame
whose ankle and nose y coincide contributes no sample. -/
theorem claim_C10 :
    ∀ kps : List PoseAnalyzer.Keypoint,
    (PoseAnalyzer.bodyHeightCollected kps ↔
      ∃ pd a nY, PoseAnalyzer.extractPoseData kps = some pd ∧
        PoseAnalyzer.ankleYOf kps = some a ∧
        PoseAnalyzer.noseYOf kps = some nY ∧ 0 < |a - nY|) ∧
    ((PoseAnalyzer.noseYOf kps).isSome ↔
      ∃ nkp, PoseAnalyzer.getKeypoint kps .nose = some nkp ∧
        nkp.score > PoseAnalyzer.minConfidence) ∧
    ((PoseAnalyzer.ankleYOf kps).isSome ↔
      (∃ la, PoseAnalyzer.getKeypoint kps .left_ankle = some la ∧
        la.score > PoseAnalyzer.minConfidence) ∨
      (∃ ra, PoseAnalyzer.getKeypoint kps .right_ankle = some ra ∧
        ra.score > PoseAnalyzer.minConfidence)) ∧
    (∀ la ra, PoseAnalyzer.getKeypoint kps .left_ankle = some la →
      PoseAnalyzer.getKeypoint kps .right_ankle = some ra →
      la.score > PoseAnalyzer.minConfidence →
      ra.score > PoseAnalyzer.minConfidence →
      PoseAnalyzer.ankleYOf kps = some ((la.y + ra.y) / 2)) ∧
    (∀ la ra, PoseAnalyzer.getKeypoint kps .left_ankle = some la →
      PoseAnalyzer.getKeypoint kps .right_ankle = some ra →
      la.score > PoseAnalyzer.minConfidence →
      ¬ra.score > PoseAnalyzer.minConfidence →
      PoseAnalyzer.ankleYOf kps = some la.y) ∧
    (∀ la ra, PoseAnalyzer.getKeypoint kps .left_ankle = some la →
      PoseAnalyzer.getKeypoint kps .right_ankle = some ra →
      ¬la.score > PoseAnalyzer.minConfidence →
      ra.score > PoseAnalyzer.minConfidence →
      PoseAnalyzer.ankleYOf kps = some ra.y) ∧
    (∀ la, PoseAnalyzer.getKeypoint kps .left_ankle = some la →
      PoseAnalyzer.getKeypoint kps .right_ankle = none →
      la.score > PoseAnalyzer.minConfidence →
      PoseAnalyzer.ankleYOf kps = some la.y) ∧
    (∀ ra, PoseAnalyzer.getKeypoint kps .left_ankle = none →
      PoseAnalyzer.getKeypoint kps .right_ankle = some ra →
      ra.score > PoseAnalyzer.minConfidence →
      PoseAnalyzer.ankleYOf kps = some ra.y) ∧
    (∀ a nY, PoseAnalyzer.ankleYOf kps = some a →
      PoseAnalyzer.noseYOf kps = some nY → a = nY →
      ¬PoseAnalyzer.bodyHeightCollected kps) := by
  intro kps
  refine ⟨?_, ?_, ?_, ?_, ?_, ?_, ?_, ?_, ?_⟩
  · constructor
    · rintro ⟨pd, hpd, hpos⟩
      rw [extract_bodyHeight hpd] at hpos
      unfold PoseAnalyzer.bodyHeightOf at hpos
      rcases ha : PoseAnalyzer.ankleYOf kps with _ | a
      · rcases hn : PoseAnalyzer.noseYOf kps with _ | nY <;>
          simp only [ha, hn] at hpos <;> norm_num at hpos
      · rcases hn : PoseAnalyzer.noseYOf kps with _ | nY
        · simp only [ha, hn] at hpos
          norm_num at hpos
        · simp only [ha, hn] at hpos
          exact ⟨pd, a, nY, hpd, rfl, rfl, hpos⟩
    · rintro ⟨pd, a, nY, hpd, ha, hn, hpos⟩
      refine ⟨pd, hpd, ?_⟩
      rw [extract_bodyHeight hpd]
      simp only [PoseAnalyzer.bodyHeightOf, ha, hn]
      exact hpos
  · rcases hkp : PoseAnalyzer.getKeypoint kps .nose with _ | nkp
    · simp [PoseAnalyzer.noseYOf, hkp]
    · by_cases hs : nkp.score > PoseAnalyzer.minConfidence <;>
        simp [PoseAnalyzer.noseYOf, hkp, hs]
  · rcases hla : PoseAnalyzer.getKeypoint kps .left_ankle with _ | la <;>
      rcases hra : PoseAnalyzer.getKeypoint kps .right_ankle with _ | ra
    · simp [PoseAnalyzer.ankleYOf, PoseAnalyzer.getAverageY, hla, hra]
    · by_cases h2 : ra.score > PoseAnalyzer.minConfidence <;>
        simp [PoseAnalyzer.ankleYOf, PoseAnalyzer.getAverageY, hla, hra, h2]
    · by_cases h1 : la.score > PoseAnalyzer.minConfidence <;>
        simp [PoseAnalyzer.ankleYOf, PoseAnalyzer.getAverageY, hla, hra, h1]
    · by_cases h1 : la.score > PoseAnalyzer.minConfidence <;>
        by_cases h2 : ra.score > PoseAnalyzer.minConfidence <;>
        simp [PoseAnalyzer.ankleYOf, PoseAnalyzer.getAverageY, hla, hra, h1, h2]
  · intro la ra hla hra h1 h2
    simp only [PoseAnalyzer.ankleYOf, PoseAnalyzer.getAverageY, hla, hra]
    split_ifs <;> first | rfl | tauto
  · intro la ra hla hra h1 h2
    simp only [PoseAnalyzer.ankleYOf, PoseAnalyzer.getAverageY, hla, hra]
    split_ifs <;> first | rfl | tauto
  · intro la ra hla hra h1 h2
    simp only [PoseAnalyzer.ankleYOf, PoseAnalyzer.getAverageY, hla, hra]
    split_ifs <;> first | rfl | tauto
  · intro la hla hra h1
    simp only [PoseAnalyzer.ankleYOf, PoseAnalyzer.getAverageY, hla, hra]
    split_ifs <;> first | rfl | tauto
  · intro ra hla hra h1
    simp only [PoseAnalyzer.ankleYOf, PoseAnalyzer.getAverageY, hla, hra]
    split_ifs <;> first | rfl | tauto
  · intro a nY ha hn heq
    subst heq
    rintro ⟨pd, hpd, hpos⟩
    rw [extract_bodyHeight hpd] at hpos
    simp only [PoseAnalyzer.bodyHeightOf, ha, hn] at hpos
    simp at hpos

/-- C10 witness: both ankles confident fuse to the midpoint y. -/
theorem claim_C10_witness :
    PoseAnalyzer.ankleYOf PoseAnalyzer.bothAnkles = some ((10 + 20) / 2) :=
  (claim_C10 PoseAnalyzer.bothAnkles).2.2.2.1
    ⟨.left_ankle, 10, 1/2⟩ ⟨.right_ankle, 20, 1/2⟩ rfl rfl
    (by norm_num [PoseAnalyzer.minConfidence])
    (by norm_num [PoseAnalyzer.minConfidence])

end JumpCalc
